import Mathlib

/-!
Verification of the flux gateway core against its specification.

The development shallowly embeds the Go sources:
* the filter registry (`ext` package: `StoreGlobalFilter`, `StoreSelectiveFilter`,
  `LoadGlobalFilters`, `LoadSelectiveFilters`, `LoadSelectiveFilter`, `_getFilters`);
* the backend dispatch layer (`backend` package: `DoExchange` and its error values);
* the typed value resolution engine (`support` package: the resolvers of
  `valresolve.go`, `CastToArrayList`, `CastDecodeToString`,
  `JSONBytesFromQueryString`, `JSONStringValueEncode`).

Go machine integers are modelled as `Int`, Go strings and byte slices as
`String`/`List Char`, fallible Go calls as `Except`/`Option`, and the mutable
registries as explicit state values threaded through the operations.
-/

namespace Flux

/-- A registered filter. `typeId` is the value of `TypeId()`; `orderFn` is
`some o` when the filter implements the `flux.Orderer` capability with
`Order() = o`, and `none` when it does not. Filters are immutable. -/
structure Filter where
  typeId : String
  orderFn : Option Int
deriving DecidableEq, Repr

/-- `orderOf` from the ext package: the filter's `Order()` if it implements
`flux.Orderer`, else the default order `0`. -/
def orderOf (f : Filter) : Int := f.orderFn.getD 0

/-- `filterWrapper` from the ext package: a filter paired with the order
computed at registration time. -/
structure filterWrapper where
  filter : Filter
  order : Int
deriving DecidableEq, Repr

/-- The comparison of `filterArray.Less`, reflexively closed: `sort.Sort`
with `Less i j ↔ order i < order j` produces a list non-decreasing in
`order`, i.e. sorted by this relation. -/
def wrapperLE (a b : filterWrapper) : Prop := a.order ≤ b.order

instance : DecidableRel wrapperLE := fun a b =>
  inferInstanceAs (Decidable (a.order ≤ b.order))

instance : IsTotal filterWrapper wrapperLE :=
  ⟨fun a b => Int.le_total a.order b.order⟩

instance : IsTrans filterWrapper wrapperLE :=
  ⟨fun _ _ _ h1 h2 => le_trans h1 h2⟩

/-- Model of `sort.Sort(filterArray(...))`: produces a permutation of the
input sorted by `order`. (Go's sort is unstable and leaves the relative
order of equal keys unspecified; insertion sort is one admissible outcome,
and no claim below depends on the tie order.) -/
def sortFilters (l : List filterWrapper) : List filterWrapper :=
  List.insertionSort wrapperLE l

/-- State of the ext package's filter registry: the `_globalFilter` and
`_selectiveFilter` slices. -/
structure FilterRegistry where
  globalFilter : List filterWrapper
  selectiveFilter : List filterWrapper
deriving DecidableEq, Repr

/-- The initial registry: both slices start empty. -/
def emptyRegistry : FilterRegistry := ⟨[], []⟩

/-- `_checkedAppendFilter`: append a wrapper holding the filter and its
computed order. (The Go nil check cannot fire in the model: every `Filter`
value is a valid filter.) -/
def checkedAppendFilter (f : Filter) (l : List filterWrapper) : List filterWrapper :=
  l ++ [⟨f, orderOf f⟩]

/-- `StoreGlobalFilter`: append to `_globalFilter`, then re-sort by order. -/
def StoreGlobalFilter (f : Filter) (st : FilterRegistry) : FilterRegistry :=
  { st with globalFilter := sortFilters (checkedAppendFilter f st.globalFilter) }

/-- `StoreSelectiveFilter`: append to `_selectiveFilter`, then re-sort by order. -/
def StoreSelectiveFilter (f : Filter) (st : FilterRegistry) : FilterRegistry :=
  { st with selectiveFilter := sortFilters (checkedAppendFilter f st.selectiveFilter) }

/-- `_getFilters` as a pure value: the filters of the wrappers, in order.
(The freshness of the allocated result array is modelled separately with
an explicit heap, below.) -/
def getFilters (l : List filterWrapper) : List Filter := l.map (·.filter)

/-- `LoadGlobalFilters`. -/
def LoadGlobalFilters (st : FilterRegistry) : List Filter :=
  getFilters st.globalFilter

/-- `LoadSelectiveFilters`. -/
def LoadSelectiveFilters (st : FilterRegistry) : List Filter :=
  getFilters st.selectiveFilter

/-- `LoadSelectiveFilter`: linear scan of `_selectiveFilter` for a matching
`TypeId()`; `none` models Go's `(nil, false)`. -/
def LoadSelectiveFilter (filterId : String) (st : FilterRegistry) : Option Filter :=
  (st.selectiveFilter.find? (fun w => w.filter.typeId == filterId)).map (·.filter)

/-- One registration call against the registry. -/
inductive RegOp where
  | global (f : Filter)
  | selective (f : Filter)

/-- Run a sequence of registration calls against a registry state. -/
def applyRegOps (ops : List RegOp) (st : FilterRegistry) : FilterRegistry :=
  ops.foldl (fun s op =>
    match op with
    | .global f => StoreGlobalFilter f s
    | .selective f => StoreSelectiveFilter f s) st

/-- A heap of filter arrays, indexed by allocation order: the model of the
Go heap needed to state that `_getFilters` returns a freshly allocated
array on every call. -/
structure FilterHeap where
  arrays : List (List Filter)
deriving DecidableEq, Repr

/-- Read the array with identity `a`, if allocated. -/
def heapGet (h : FilterHeap) (a : Nat) : Option (List Filter) :=
  h.arrays[a]?

/-- Allocate a new array: its identity is fresh by construction. -/
def heapAlloc (h : FilterHeap) (content : List Filter) : FilterHeap × Nat :=
  (⟨h.arrays ++ [content]⟩, h.arrays.length)

/-- Mutate element `i` of array `a` in place (`out[i] = v` on a Go slice). -/
def heapSetElem (h : FilterHeap) (a i : Nat) (v : Filter) : FilterHeap :=
  ⟨h.arrays.set a ((h.arrays.getD a []).set i v)⟩

/-- `LoadGlobalFilters` with the allocation made by `_getFilters` explicit:
`make([]flux.Filter, len(in))` allocates a fresh array and the loop copies
the filters into it. Returns the new heap and the identity of the result. -/
def LoadGlobalFiltersAlloc (st : FilterRegistry) (h : FilterHeap) : FilterHeap × Nat :=
  heapAlloc h (LoadGlobalFilters st)

/-- `LoadSelectiveFilters` with the allocation made explicit. -/
def LoadSelectiveFiltersAlloc (st : FilterRegistry) (h : FilterHeap) : FilterHeap × Nat :=
  heapAlloc h (LoadSelectiveFilters st)

/-- Example filter with default order (no `Orderer` capability). -/
def filterA : Filter := ⟨"filterA", none⟩

/-- Example filter with `Order() = 0`. -/
def filterZero : Filter := ⟨"filterZero", some 0⟩

/-- Example filter with `Order() = -5`. -/
def filterMinusFive : Filter := ⟨"filterMinusFive", some (-5)⟩

/-- Example registry holding one global and one selective filter. -/
def registryEx : FilterRegistry :=
  StoreSelectiveFilter filterZero (StoreGlobalFilter filterA emptyRegistry)

/-- Example heap holding one already-allocated array. -/
def heapEx : FilterHeap := ⟨[[filterA]]⟩

/-- `http.Header` modelled as an association list of header names and
values. -/
abbrev Headers := List (String × String)

/-- `flux.StateError`: outward status code, internal error code, message,
and optional wrapped cause (a Go `error`, modelled as a `String`). -/
structure StateError where
  StatusCode : Nat
  ErrorCode : String
  Message : String
  Internal : Option String := none
deriving DecidableEq, Repr

/-- Modelled from the spec: `flux.StatusServerError` (the flux root package
is not among the sources). §7 calls it the outward server-error status of
gateway-internal failures; the concrete number is not observed by any
claim. -/
def StatusServerError : Nat := 500

/-- Modelled from the spec: `flux.ErrorCodeGatewayInternal`, the internal
error-category string of gateway-internal failures; the concrete string is
not observed by any claim. -/
def ErrorCodeGatewayInternal : String := "GATEWAY:INTERNAL"

/-- `ErrBackendResponseDecoderNotFound` from the backend package. -/
def ErrBackendResponseDecoderNotFound : StateError :=
  { StatusCode := StatusServerError
    ErrorCode := ErrorCodeGatewayInternal
    Message := "BACKEND:RESPONSE_DECODER:NOT_FOUND" }

/-- The gateway-internal error `DoExchange` builds around a decoder error,
preserving the original cause in `Internal`. -/
def decodeResponseError (err : String) : StateError :=
  { StatusCode := StatusServerError
    ErrorCode := ErrorCodeGatewayInternal
    Message := "BACKEND:DECODE_RESPONSE"
    Internal := some err }

/-- `flux.BackendService`: only the declared protocol is consulted by the
dispatch code under verification. -/
structure BackendService where
  RpcProto : String
deriving DecidableEq, Repr

/-- `flux.Endpoint`: carries the target backend service. -/
structure Endpoint where
  Service : BackendService
deriving DecidableEq, Repr

/-- One call against the outward response's setters, recorded so that the
order (and absence) of setter calls is observable. -/
inductive RespCall (Body : Type) where
  | setStatusCode (code : Int)
  | setHeaders (headers : Headers)
  | setBody (body : Body)
deriving DecidableEq, Repr

/-- The outward response carried by a context: current fields plus the
trace of setter calls made so far. -/
structure CtxResponse (Body : Type) where
  statusCode : Int
  headers : Headers
  body : Option Body
  calls : List (RespCall Body)
deriving DecidableEq, Repr

/-- `flux.Context` as consumed by `DoExchange`: the endpoint descriptor and
the outward response. -/
structure Context (Body : Type) where
  endpoint : Endpoint
  response : CtxResponse Body
deriving DecidableEq, Repr

/-- `ctx.Response().SetStatusCode(code)`. -/
def Context.setStatusCode {Body : Type} (ctx : Context Body) (code : Int) :
    Context Body :=
  { ctx with response := { ctx.response with
      statusCode := code
      calls := ctx.response.calls ++ [.setStatusCode code] } }

/-- `ctx.Response().SetHeaders(headers)`. -/
def Context.setHeaders {Body : Type} (ctx : Context Body) (headers : Headers) :
    Context Body :=
  { ctx with response := { ctx.response with
      headers := headers
      calls := ctx.response.calls ++ [.setHeaders headers] } }

/-- `ctx.Response().SetBody(body)`. -/
def Context.setBody {Body : Type} (ctx : Context Body) (body : Body) :
    Context Body :=
  { ctx with response := { ctx.response with
      body := some body
      calls := ctx.response.calls ++ [.setBody body] } }

/-- A backend invoker: `Invoke(service, ctx)` returning a raw response or a
`*flux.StateError`. -/
def Backend (Raw Body : Type) : Type :=
  BackendService → Context Body → Except StateError Raw

/-- A backend response decoder: `decoder(ctx, response)` returning
`(statusCode, headers, body)` or a Go error (modelled as `String`). -/
def BackendResponseDecoder (Raw Body : Type) : Type :=
  Context Body → Raw → Except String (Int × Headers × Body)

/-- `DoExchange` from the backend package. The registry behind
`ext.LoadBackendResponseDecoder` is passed as the lookup function
`decoders` (its store/load code is not among the sources; per the spec it
is a replace-by-key map from protocol to decoder). -/
def DoExchange {Raw Body : Type}
    (decoders : String → Option (BackendResponseDecoder Raw Body))
    (ctx : Context Body) (exchange : Backend Raw Body) :
    Context Body × Option StateError :=
  match exchange ctx.endpoint.Service ctx with
  | .error err => (ctx, some err)
  | .ok resp =>
    match decoders ctx.endpoint.Service.RpcProto with
    | none => (ctx, some ErrBackendResponseDecoderNotFound)
    | some decoder =>
      match decoder ctx resp with
      | .ok (code, headers, body) =>
        (((ctx.setStatusCode code).setHeaders headers).setBody body, none)
      | .error err => (ctx, some (decodeResponseError err))

/-- Example service with protocol "http". -/
def serviceHttp : BackendService := ⟨"http"⟩

/-- Example context: endpoint declaring protocol "http", pristine response. -/
def ctxEx : Context String := ⟨⟨serviceHttp⟩, ⟨0, [], none, []⟩⟩

/-- Example invocation error. -/
def invokeErrEx : StateError := ⟨503, "GATEWAY:BACKEND", "BACKEND:FAIL", none⟩

/-- Example backend whose invocation succeeds with a raw response. -/
def backendOkEx : Backend String String := fun _ _ => .ok "raw-response"

/-- Example backend whose invocation fails. -/
def backendErrEx : Backend String String := fun _ _ => .error invokeErrEx

/-- Example decoder mapping any raw response to (200, X=Y, body). -/
def decoderEx : BackendResponseDecoder String String :=
  fun _ raw => .ok (200, [("X", "Y")], raw)

/-- Example decoder that always fails. -/
def decoderErrEx : BackendResponseDecoder String String :=
  fun _ _ => .error "decode boom"

/-- Example decoder registry with only protocol "http" registered. -/
def decodersEx : String → Option (BackendResponseDecoder String String) :=
  fun proto => if proto = "http" then some decoderEx else none

/-- Example decoder registry with nothing registered. -/
def decodersNone : String → Option (BackendResponseDecoder String String) :=
  fun _ => none

/-- Example decoder registry whose "http" decoder fails. -/
def decodersErrEx : String → Option (BackendResponseDecoder String String) :=
  fun proto => if proto = "http" then some decoderErrEx else none

/-- Fueled core of `strings.Replace(s, old, new, -1)`: scan left to right,
replacing non-overlapping occurrences of `old`. The fuel (instantiated with
`s.length`, which every step consumes at least one character of) keeps the
recursion structural so that concrete inputs evaluate by `rfl`/`decide`.
The engine only calls this with the non-empty pattern `"` (Go's behavior
for an empty pattern is different and is not modelled). -/
def stringsReplaceFuel (old new : List Char) : Nat → List Char → List Char
  | _, [] => []
  | 0, s => s
  | fuel + 1, c :: rest =>
    if old.isPrefixOf (c :: rest) then
      new ++ stringsReplaceFuel old new fuel (rest.drop (old.length - 1))
    else c :: stringsReplaceFuel old new fuel rest

/-- `strings.Replace(s, old, new, -1)` on character lists. -/
def stringsReplace (s old new : List Char) : List Char :=
  stringsReplaceFuel old new s.length s

/-- The character-list core of `JSONStringValueEncode`:
`strings.Replace(str, quote, backslash-quote, -1)`. -/
def jsonEncodeChars (l : List Char) : List Char :=
  stringsReplace l ['"'] ['\\', '"']

/-- `JSONStringValueEncode` from valresolve.go. -/
def JSONStringValueEncode (s : String) : String :=
  ⟨jsonEncodeChars s.data⟩

/-- Value of a hexadecimal digit, as accepted by `url.QueryUnescape`. -/
def hexDigitVal? (c : Char) : Option Nat :=
  if '0' ≤ c ∧ c ≤ '9' then some (c.toNat - '0'.toNat)
  else if 'a' ≤ c ∧ c ≤ 'f' then some (c.toNat - 'a'.toNat + 10)
  else if 'A' ≤ c ∧ c ≤ 'F' then some (c.toNat - 'A'.toNat + 10)
  else none

/-- `url.QueryUnescape`: percent-decoding with `+` decoded as space;
`none` models the malformed-escape error. -/
def queryUnescape : List Char → Option (List Char)
  | [] => some []
  | '%' :: rest =>
    match rest with
    | a :: b :: rest' =>
      match hexDigitVal? a, hexDigitVal? b with
      | some ha, some hb =>
        (queryUnescape rest').map (Char.ofNat (16 * ha + hb) :: ·)
      | _, _ => none
    | _ => none
  | '+' :: rest => (queryUnescape rest).map (' ' :: ·)
  | c :: rest => (queryUnescape rest).map (c :: ·)

/-- The segment splitting of `url.ParseQuery`: segments are separated by
`&` or `;` (the stdlib behavior of the repository's Go era); empty
segments are skipped later. -/
def splitSegs : List Char → List (List Char)
  | [] => [[]]
  | c :: rest =>
    if c = '&' ∨ c = ';' then [] :: splitSegs rest
    else
      match splitSegs rest with
      | seg :: segs => (c :: seg) :: segs
      | [] => [[c]]

/-- Split a segment at the first `=` into key and value; a segment without
`=` keeps the whole text as key and the empty value, as in the stdlib. -/
def splitKV : List Char → List Char × List Char
  | [] => ([], [])
  | '=' :: rest => ([], rest)
  | c :: rest =>
    let kv := splitKV rest
    (c :: kv.1, kv.2)

/-- Append a value under a key of the accumulated `url.Values`
(`m[key] = append(m[key], value)`). Go's `url.Values` is a map whose
iteration order is unspecified; the model fixes first-insertion key
order, which no claim distinguishes. -/
def upsertValue (m : List (List Char × List (List Char))) (k v : List Char) :
    List (List Char × List (List Char)) :=
  match m with
  | [] => [(k, [v])]
  | (k', vs) :: rest =>
    if k' = k then (k', vs ++ [v]) :: rest
    else (k', vs) :: upsertValue rest k v

/-- One loop iteration of `url.ParseQuery`: skip empty segments, split
key from value, unescape both, record the pair; an unescape failure sets
the error flag and skips the pair, as in the stdlib. -/
def parseQueryStep (acc : List (List Char × List (List Char)) × Bool)
    (seg : List Char) : List (List Char × List (List Char)) × Bool :=
  if seg = [] then acc
  else
    let kv := splitKV seg
    match queryUnescape kv.1, queryUnescape kv.2 with
    | some k, some v => (upsertValue acc.1 k v, acc.2)
    | _, _ => (acc.1, true)

/-- `url.ParseQuery`: the accumulated values and an error flag (`true`
when some pair failed to unescape, in which case Go returns a non-nil
error alongside the partial map). -/
def parseQuery (s : List Char) : List (List Char × List (List Char)) × Bool :=
  (splitSegs s).foldl parseQueryStep ([], false)

/-- The field rendered for one key of `JSONBytesFromQueryString`'s loop:
multi-valued keys become a JSON array of quoted encoded values, joined by
commas; single-valued keys a single quoted encoded value. The key itself
is quoted but not encoded, exactly as in the source. -/
def renderQueryField (kv : List Char × List (List Char)) : List Char :=
  if kv.2.length > 1 then
    let copied := kv.2.map (fun val => '"' :: (jsonEncodeChars val ++ ['"']))
    '"' :: (kv.1 ++ '"' :: ':' :: '[' :: (List.intercalate [','] copied ++ [']']))
  else
    '"' :: (kv.1 ++ '"' :: ':' :: '"' :: (jsonEncodeChars (kv.2.headD []) ++ ['"']))

/-- `JSONBytesFromQueryString` from valresolve.go: parse the form payload,
render every key's field, join the fields with commas and wrap in braces.
The `[]byte` payload and result are modelled as strings. -/
def JSONBytesFromQueryString (queryStr : String) : Except String String :=
  match parseQuery queryStr.data with
  | (_, true) => .error "invalid URL escape"
  | (queryValues, false) =>
    .ok ⟨'{' :: (List.intercalate [','] (queryValues.map renderQueryField) ++ ['}'])⟩

/-- A quoted, escaped JSON string as the spec's §4.3 words describe it
(escaping = the transcoder's quote doubling). -/
def specQuoted (v : List Char) : List Char :=
  '"' :: (jsonEncodeChars v ++ ['"'])

/-- The spec's §4.3 rendering of one key, stated independently of the
source: a key with multiple values is rendered as a JSON array of quoted,
escaped strings; a key with exactly one value as a single quoted, escaped
string. -/
def specRenderField (k : List Char) (vs : List (List Char)) : List Char :=
  if 1 < vs.length then
    '"' :: (k ++ ['"', ':', '['] ++ List.intercalate [','] (vs.map specQuoted) ++ [']'])
  else
    '"' :: (k ++ ['"', ':'] ++ specQuoted (vs.headD []))

/-- Go `interface{}` values as they occur in the resolution engine. -/
inductive Value where
  | strv (s : String)
  | bytesv (s : String)
  | intv (n : Int)
  | boolv (b : Bool)
  | floatv (q : ℚ)
  | listv (l : List Value)
  | mapv (m : List (String × Value))
  | mimev (mimeType : String) (v : Value)
  | objv (tag : String)
deriving Repr

/-- `flux.MIMEValue`: a MIME-type tag paired with the raw value. -/
structure MIMEValue where
  MIMEType : String
  Value : Value
deriving Repr

/-- Modelled from the spec: `flux.ValueMIMETypeGoText`, the tag of a raw
in-memory text value (the flux root package is not among the sources; the
concrete string is not observed by any claim). -/
def ValueMIMETypeGoText : String := "go:text"

/-- Modelled from the spec: `flux.ValueMIMETypeGoStringMap`, the tag of a
raw in-memory string-keyed map. -/
def ValueMIMETypeGoStringMap : String := "go:string-map"

/-- Modelled from the spec: `flux.ValueMIMETypeGoObject`, the tag of a raw
in-memory object of some other shape. -/
def ValueMIMETypeGoObject : String := "go:object"

/-- The JSON serializer obtained from `ext.LoadSerializer`: an external
collaborator configured outside this core, modelled as an arbitrary pair
of total functions and universally quantified in every theorem that can
reach it. -/
structure Serializer where
  marshal : Value → Except String String
  unmarshalMap : String → Except String (List (String × Value))

/-- Decimal integer syntax (optional sign, at least one digit), the
fragment of Go's `strconv` integer parsing exercised by the claims. -/
def digitsVal? (l : List Char) : Option Nat :=
  if l = [] then none
  else
    l.foldl
      (fun acc c =>
        match acc with
        | none => none
        | some a => if c.isDigit then some (a * 10 + (c.toNat - '0'.toNat)) else none)
      (some 0)

/-- Parse an optionally signed decimal integer, `none` on any other text. -/
def parseDecInt? (s : String) : Option Int :=
  match s.data with
  | '-' :: rest => (digitsVal? rest).map (fun n => -(n : Int))
  | '+' :: rest => (digitsVal? rest).map (fun n => (n : Int))
  | l => (digitsVal? l).map (fun n => (n : Int))

/-- Truncation toward zero, Go's int(float) conversion. -/
def ratTruncToInt (q : ℚ) : Int :=
  if q < 0 then -((-q).floor) else q.floor

/-- Modelled from the spec: `cast.ToInt` of the spf13/cast library (an
external dependency) — best-effort cast to integer, yielding the zero
value on any failure. String parsing is modelled on the decimal fragment;
no claim observes other inputs than decimal and unparseable text. -/
def castToInt (v : Value) : Int :=
  match v with
  | .intv n => n
  | .strv s => (parseDecInt? s).getD 0
  | .boolv b => if b then 1 else 0
  | .floatv q => ratTruncToInt q
  | _ => 0

/-- Modelled from the spec: `cast.ToInt64`; `Int` is unbounded so the model
coincides with `castToInt`. -/
def castToInt64 (v : Value) : Int := castToInt v

/-- Modelled from the spec: `cast.ToFloat64` — best-effort cast, zero value
on failure. Floats are modelled as exact rationals; no claim observes a
float's numeric value, only that the cast never errors. -/
def castToFloat64 (v : Value) : ℚ :=
  match v with
  | .floatv q => q
  | .intv n => (n : ℚ)
  | .strv s => ((parseDecInt? s).getD 0 : ℚ)
  | .boolv b => if b then 1 else 0
  | _ => 0

/-- Modelled from the spec: `cast.ToFloat32`; 32-bit rounding is not
modelled, no claim observes it. -/
def castToFloat32 (v : Value) : ℚ := castToFloat64 v

/-- Modelled from the spec: `cast.ToBool` — best-effort cast, `false` on
failure, with `strconv.ParseBool`'s accepted spellings for strings. -/
def castToBool (v : Value) : Bool :=
  match v with
  | .boolv b => b
  | .intv n => n != 0
  | .strv s => s = "1" ∨ s = "t" ∨ s = "T" ∨ s = "TRUE" ∨ s = "true" ∨ s = "True"
  | _ => false

/-- Modelled from the spec: `cast.ToStringE` — the last-resort generic
string cast of `CastDecodeToString`'s default branch. Float formatting is
not modelled bit-exactly; no claim observes it. -/
def castToStringE (v : Value) : Except String String :=
  match v with
  | .strv s => .ok s
  | .bytesv s => .ok s
  | .intv n => .ok (toString n)
  | .boolv b => .ok (if b then "true" else "false")
  | .floatv q => .ok (toString q)
  | _ => .error "unable to cast to string"

/-- Modelled from the spec: `cast.ToStringMapE` — structural cast to a
string-keyed map, error on any other shape. -/
def castToStringMapE (v : Value) : Except String (List (String × Value)) :=
  match v with
  | .mapv m => .ok m
  | _ => .error "unable to cast to map"

/-- Modelled from the spec: `cast.ToStringMap`, the error-ignoring variant
(zero-value nil map on failure). -/
def castToStringMap (v : Value) : List (String × Value) :=
  match castToStringMapE v with
  | .ok m => m
  | .error _ => []

/-- The sentinel `errCastToByteTypeNotSupported` of valresolve.go. -/
def errCastToByteTypeNotSupported : String := "cannot convert value to []byte"

/-- `_toBytes0`: best-effort byte extraction from `[]byte` or `string`.
Go's `io.Reader` case (drain and close a stream) is effectful and has no
counterpart among the modelled value shapes; every other shape yields the
sentinel error, as in the source's default branch. -/
def toBytes0 (v : Value) : Except String String :=
  match v with
  | .bytesv s => .ok s
  | .strv s => .ok s
  | _ => .error errCastToByteTypeNotSupported

/-- `_toBytes`: `_toBytes0` with the error wrapped with context. -/
def toBytes (v : Value) : Except String String :=
  match toBytes0 v with
  | .ok bs => .ok bs
  | .error e => .error ("value cannot convert to bytes: " ++ e)

/-- `strings.Contains` on the modelled strings. -/
def containsSub : List Char → List Char → Bool
  | [], pat => pat.isEmpty
  | c :: rest, pat => pat.isPrefixOf (c :: rest) || containsSub rest pat

/-- `strings.Contains`. -/
def strContains (s pat : String) : Bool := containsSub s.data pat.data

/-- `CastDecodeToString` from valresolve.go. The Go-text branch's type
assertion `mimeV.Value.(string)` panics on a non-string value; the model
returns a distinguished error there (no claim reaches that case). The
Go-string-map branch delegates to the JSON serializer. -/
def CastDecodeToString (ser : Serializer) (mimeV : MIMEValue) : Except String String :=
  if mimeV.MIMEType = ValueMIMETypeGoText then
    match mimeV.Value with
    | .strv s => .ok s
    | _ => .error "panic: interface conversion to string"
  else if mimeV.MIMEType = ValueMIMETypeGoStringMap then
    ser.marshal mimeV.Value
  else
    match toBytes0 mimeV.Value with
    | .ok data => .ok data
    | .error e =>
      if e = errCastToByteTypeNotSupported then castToStringE mimeV.Value
      else .error e

/-- `CastDecodeToStringMap` from valresolve.go. -/
def CastDecodeToStringMap (ser : Serializer) (mimeV : MIMEValue) :
    Except String (List (String × Value)) :=
  if mimeV.MIMEType = ValueMIMETypeGoStringMap then
    .ok (castToStringMap mimeV.Value)
  else if mimeV.MIMEType = ValueMIMETypeGoText then
    match mimeV.Value with
    | .strv s =>
      match ser.unmarshalMap s with
      | .ok m => .ok m
      | .error e => .error ("cannot decode text to hashmap: " ++ e)
    | _ => .error "panic: interface conversion to string"
  else if mimeV.MIMEType = ValueMIMETypeGoObject then
    match castToStringMapE mimeV.Value with
    | .ok sm => .ok sm
    | .error _ => .error "cannot cast object to hashmap"
  else if strContains mimeV.MIMEType "application/json" then
    match toBytes mimeV.Value with
    | .error e => .error e
    | .ok data => ser.unmarshalMap data
  else if strContains mimeV.MIMEType "application/x-www-form-urlencoded" then
    match toBytes mimeV.Value with
    | .error e => .error e
    | .ok bs =>
      match JSONBytesFromQueryString bs with
      | .error e => .error e
      | .ok jbs => ser.unmarshalMap jbs
  else
    match castToStringMapE mimeV.Value with
    | .ok sm => .ok sm
    | .error _ => .error "unsupported mime-type to hashmap"

/-- `flux.TypedValueResolver`:
`(typeClassName, genericTypeNames, MIMEValue) → (value, error)`. -/
def TypedValueResolver : Type :=
  String → List String → MIMEValue → Except String Value

/-- Modelled from the spec: `flux.TypedValueResolveWrapper` lifts a plain
cast of the underlying raw value into a `TypedValueResolver` (§4.3: the
numeric/boolean resolvers are unconditional casts of the underlying raw
value). -/
def TypedValueResolveWrapper (f : Value → Except String Value) : TypedValueResolver :=
  fun _ _ mv => f mv.Value

/-- `stringResolver` from valresolve.go. -/
def stringResolver (ser : Serializer) : TypedValueResolver :=
  fun _ _ mv => (CastDecodeToString ser mv).map .strv

/-- `integerResolver` from valresolve.go: `cast.ToInt(value), nil`. -/
def integerResolver : TypedValueResolver :=
  TypedValueResolveWrapper (fun value => .ok (.intv (castToInt value)))

/-- `longResolver` from valresolve.go: `cast.ToInt64(value), nil`. -/
def longResolver : TypedValueResolver :=
  TypedValueResolveWrapper (fun value => .ok (.intv (castToInt64 value)))

/-- `float32Resolver` from valresolve.go: `cast.ToFloat32(value), nil`. -/
def float32Resolver : TypedValueResolver :=
  TypedValueResolveWrapper (fun value => .ok (.floatv (castToFloat32 value)))

/-- `float64Resolver` from valresolve.go: `cast.ToFloat64(value), nil`. -/
def float64Resolver : TypedValueResolver :=
  TypedValueResolveWrapper (fun value => .ok (.floatv (castToFloat64 value)))

/-- `booleanResolver` from valresolve.go: `cast.ToBool(value), nil`. -/
def booleanResolver : TypedValueResolver :=
  TypedValueResolveWrapper (fun value => .ok (.boolv (castToBool value)))

/-- `mapResolver` from valresolve.go. -/
def mapResolver (ser : Serializer) : TypedValueResolver :=
  fun _ _ mv => (CastDecodeToStringMap ser mv).map .mapv

/-- `defaultResolver` from valresolve.go: a generic descriptor carrying the
original type name, the generic parameters and the raw MIME value,
unchanged and never erring. -/
def defaultResolver : TypedValueResolver :=
  fun typeClass typeGeneric value =>
    .ok (.mapv [("class", .strv typeClass),
                ("generic", .listv (typeGeneric.map .strv)),
                ("value", .mimev value.MIMEType value.Value)])

/-- Which resolver each alias name is bound to. -/
inductive ResolverTag where
  | stringT | integerT | longT | float32T | float64T | booleanT | mapT | listT | defaultT
deriving DecidableEq, Repr

/-- The contents of the typed-value-resolver registry after `init()` of
valresolve.go (the store/load registry code of the ext package is not
among the sources; per the spec it is a replace-by-key map). The
fully-qualified Java aliases stand for the flux constants
`JavaLangStringClassName` etc.; "default" stands for the reserved
`ext.DefaultTypedValueResolverName`, under which `init()` registers the
default resolver. `none` = no resolver registered for that name. -/
def registeredTag (name : String) : Option ResolverTag :=
  match name with
  | "string" | "String" | "java.lang.String" => some .stringT
  | "int" | "Integer" | "java.lang.Integer" => some .integerT
  | "int64" | "long" | "Long" | "java.lang.Long" => some .longT
  | "float" | "Float" | "java.lang.Float" => some .float32T
  | "double" | "Double" | "java.lang.Double" => some .float64T
  | "bool" | "Boolean" | "java.lang.Boolean" => some .booleanT
  | "map" | "Map" | "java.util.Map" => some .mapT
  | "slice" | "List" | "java.util.List" => some .listT
  | "default" => some .defaultT
  | _ => none

/-- Dispatch a resolver tag to the source resolver it names. The list
resolver inlines `CastToArrayList`'s element resolution (the element call
always passes an empty generic list, which bounds the recursion); the
equations relating this dispatcher to the named source resolvers are
proved below. -/
def runResolver (ser : Serializer) :
    ResolverTag → String → List String → MIMEValue → Except String Value
  | .stringT, tc, g, mv => stringResolver ser tc g mv
  | .integerT, tc, g, mv => integerResolver tc g mv
  | .longT, tc, g, mv => longResolver tc g mv
  | .float32T, tc, g, mv => float32Resolver tc g mv
  | .float64T, tc, g, mv => float64Resolver tc g mv
  | .booleanT, tc, g, mv => booleanResolver tc g mv
  | .mapT, tc, g, mv => mapResolver ser tc g mv
  | .defaultT, tc, g, mv => defaultResolver tc g mv
  | .listT, _, g, mv =>
    match g with
    | [] => .ok (.listv [mv.Value])
    | typeClass :: _ =>
      match runResolver ser ((registeredTag typeClass).getD .defaultT) typeClass [] mv with
      | .ok v => .ok (.listv [v])
      | .error e => .error e
termination_by _ _ g _ => g.length

/-- Modelled from the spec: `ext.LoadTypedValueResolver` — the resolver
registered under the name, falling back to the resolver registered under
the reserved default name when the name is absent. -/
def LoadTypedValueResolver (ser : Serializer) (name : String) : TypedValueResolver :=
  fun tc g mv => runResolver ser ((registeredTag name).getD .defaultT) tc g mv

/-- `CastToArrayList` from valresolve.go: with generic element types
present, resolve the MIME value as a single element with the first generic
type's resolver (called with an empty generic list) and wrap it in a
one-element sequence; otherwise wrap the raw value unchanged. -/
def CastToArrayList (ser : Serializer) (genericTypes : List String)
    (mimeV : MIMEValue) : Except String (List Value) :=
  match genericTypes with
  | typeClass :: _ =>
    match LoadTypedValueResolver ser typeClass typeClass [] mimeV with
    | .ok v => .ok [v]
    | .error e => .error e
  | [] => .ok [mimeV.Value]

/-- `listResolver` from valresolve.go. -/
def listResolver (ser : Serializer) : TypedValueResolver :=
  fun _ g mv => (CastToArrayList ser g mv).map .listv

/-- Resolution as the engine's callers perform it: load the resolver for
the type-class name and apply it to the name, generics and MIME value. -/
def resolveTypedValue (ser : Serializer) (typeClassName : String)
    (generic : List String) (mv : MIMEValue) : Except String Value :=
  LoadTypedValueResolver ser typeClassName typeClassName generic mv

/-- Example serializer for witnesses (never consulted by them). -/
def serEx : Serializer :=
  ⟨fun _ => .error "marshal unavailable", fun _ => .error "unmarshal unavailable"⟩

end Flux

namespace Flux

/-- The registration-time order stored in every wrapper of the registry is
the `orderOf` of its filter. -/
def ordersConsistent (st : FilterRegistry) : Prop :=
  (∀ w ∈ st.globalFilter, w.order = orderOf w.filter) ∧
  (∀ w ∈ st.selectiveFilter, w.order = orderOf w.filter)

theorem sortFilters_sorted (l : List filterWrapper) :
    (sortFilters l).Sorted wrapperLE :=
  List.sorted_insertionSort wrapperLE l

theorem mem_sortFilters {l : List filterWrapper} {w : filterWrapper} :
    w ∈ sortFilters l ↔ w ∈ l :=
  List.mem_insertionSort wrapperLE

theorem ordersConsistent_store (f : Filter) (st : FilterRegistry)
    (h : ordersConsistent st) :
    ordersConsistent (StoreGlobalFilter f st) ∧
    ordersConsistent (StoreSelectiveFilter f st) := by
  constructor
  · refine ⟨fun w hw => ?_, h.2⟩
    rcases List.mem_append.1 (mem_sortFilters.1 hw) with h' | h'
    · exact h.1 w h'
    · simp only [List.mem_singleton] at h'
      subst h'; rfl
  · refine ⟨h.1, fun w hw => ?_⟩
    rcases List.mem_append.1 (mem_sortFilters.1 hw) with h' | h'
    · exact h.2 w h'
    · simp only [List.mem_singleton] at h'
      subst h'; rfl

theorem ordersConsistent_applyRegOps (ops : List RegOp) (st : FilterRegistry)
    (h : ordersConsistent st) : ordersConsistent (applyRegOps ops st) := by
  induction ops generalizing st with
  | nil => exact h
  | cons op rest ih =>
    cases op with
    | global f => exact ih _ ((ordersConsistent_store f st h).1)
    | selective f => exact ih _ ((ordersConsistent_store f st h).2)

/-- After at least one registration the owning slice is the output of
`sortFilters`; before any registration it is empty. Either way it is
sorted. -/
theorem applyRegOps_global_sorted (ops : List RegOp) (st : FilterRegistry)
    (h : st.globalFilter.Sorted wrapperLE) :
    (applyRegOps ops st).globalFilter.Sorted wrapperLE := by
  induction ops generalizing st with
  | nil => exact h
  | cons op rest ih =>
    cases op with
    | global f => exact ih _ (sortFilters_sorted _)
    | selective f => exact ih _ h

theorem applyRegOps_selective_sorted (ops : List RegOp) (st : FilterRegistry)
    (h : st.selectiveFilter.Sorted wrapperLE) :
    (applyRegOps ops st).selectiveFilter.Sorted wrapperLE := by
  induction ops generalizing st with
  | nil => exact h
  | cons op rest ih =>
    cases op with
    | global f => exact ih _ h
    | selective f => exact ih _ (sortFilters_sorted _)

theorem sorted_orders_of_wrappers {l : List filterWrapper}
    (hs : l.Sorted wrapperLE) (hc : ∀ w ∈ l, w.order = orderOf w.filter) :
    ((getFilters l).map orderOf).Sorted (· ≤ ·) := by
  unfold getFilters List.Sorted
  rw [List.map_map, List.pairwise_map]
  refine List.Pairwise.imp_of_mem ?_ hs
  intro a b ha hb hab
  have h1 := hc a ha
  have h2 := hc b hb
  simpa [Function.comp, ← h1, ← h2] using hab

theorem heapGet_alloc_fresh (h : FilterHeap) (c : List Filter) :
    heapGet h (heapAlloc h c).2 = none := by
  simp [heapGet, heapAlloc]

theorem heapGet_alloc_self (h : FilterHeap) (c : List Filter) :
    heapGet (heapAlloc h c).1 (heapAlloc h c).2 = some c := by
  simp [heapGet, heapAlloc]

theorem heapGet_setElem_ne (h : FilterHeap) (a i : Nat) (v : Filter) (b : Nat)
    (hab : b ≠ a) : heapGet (heapSetElem h a i v) b = heapGet h b := by
  simp [heapGet, heapSetElem, List.getElem?_set_ne (Ne.symm hab)]

/-- C1: after every sequence of registrations via `StoreGlobalFilter` and
`StoreSelectiveFilter` (order from `Order()`, defaulting to 0), the lists
returned by `LoadGlobalFilters` and `LoadSelectiveFilters` are in
non-decreasing order of the filters' order values; in particular a filter
with order -5 registered after a filter with order 0 is placed before it. -/
theorem c1_filter_lists_sorted (ops : List RegOp) :
    ((LoadGlobalFilters (applyRegOps ops emptyRegistry)).map orderOf).Sorted (· ≤ ·) ∧
    ((LoadSelectiveFilters (applyRegOps ops emptyRegistry)).map orderOf).Sorted (· ≤ ·) ∧
    LoadGlobalFilters (applyRegOps
        [RegOp.global filterZero, RegOp.global filterMinusFive] emptyRegistry)
      = [filterMinusFive, filterZero] := by
  have hbase : ordersConsistent emptyRegistry := by
    simp [ordersConsistent, emptyRegistry]
  have hc := ordersConsistent_applyRegOps ops emptyRegistry hbase
  refine ⟨?_, ?_, ?_⟩
  · exact sorted_orders_of_wrappers
      (applyRegOps_global_sorted ops emptyRegistry List.sorted_nil) hc.1
  · exact sorted_orders_of_wrappers
      (applyRegOps_selective_sorted ops emptyRegistry List.sorted_nil) hc.2
  · decide

/-- C10: `LoadGlobalFilters`/`LoadSelectiveFilters` allocate a fresh array on
every call: the returned array identity is unallocated in the incoming heap,
it holds the registry's filters, mutating one of its elements leaves every
other array unchanged, and any later load (in particular on the mutated
heap) still yields the registry's filters. The registry state `st` itself —
and hence every `LoadSelectiveFilter` lookup against it — is a value the
heap mutation cannot touch, as the universally quantified heap in the last
conjunct makes explicit. -/
theorem c10_load_filters_fresh_array (st : FilterRegistry) (h : FilterHeap)
    (i : Nat) (v : Filter) (b : Nat) :
    heapGet h (LoadGlobalFiltersAlloc st h).2 = none ∧
    heapGet h (LoadSelectiveFiltersAlloc st h).2 = none ∧
    heapGet (LoadGlobalFiltersAlloc st h).1 (LoadGlobalFiltersAlloc st h).2
      = some (LoadGlobalFilters st) ∧
    (b ≠ (LoadGlobalFiltersAlloc st h).2 →
      heapGet (heapSetElem (LoadGlobalFiltersAlloc st h).1
          (LoadGlobalFiltersAlloc st h).2 i v) b
        = heapGet (LoadGlobalFiltersAlloc st h).1 b) ∧
    (∀ h' : FilterHeap,
      heapGet (LoadGlobalFiltersAlloc st h').1 (LoadGlobalFiltersAlloc st h').2
          = some (LoadGlobalFilters st) ∧
      heapGet (LoadSelectiveFiltersAlloc st h').1 (LoadSelectiveFiltersAlloc st h').2
          = some (LoadSelectiveFilters st)) := by
  refine ⟨heapGet_alloc_fresh h _, heapGet_alloc_fresh h _, heapGet_alloc_self h _,
    fun hb => heapGet_setElem_ne _ _ i v b hb, fun h' =>
    ⟨heapGet_alloc_self h' _, heapGet_alloc_self h' _⟩⟩

/-- Witness for C10 at a concrete registry, heap, index and element. -/
theorem c10_load_filters_fresh_array_witness :
    heapGet (heapSetElem (LoadGlobalFiltersAlloc registryEx heapEx).1
        (LoadGlobalFiltersAlloc registryEx heapEx).2 0 filterZero) 0
      = heapGet (LoadGlobalFiltersAlloc registryEx heapEx).1 0 :=
  (c10_load_filters_fresh_array registryEx heapEx 0 filterZero 0).2.2.2.1 (by decide)

theorem doExchange_invoke_error {Raw Body : Type}
    {decoders : String → Option (BackendResponseDecoder Raw Body)}
    {ctx : Context Body} {exchange : Backend Raw Body} {e : StateError}
    (hinv : exchange ctx.endpoint.Service ctx = .error e) :
    DoExchange decoders ctx exchange = (ctx, some e) := by
  unfold DoExchange
  rw [hinv]

theorem doExchange_no_decoder {Raw Body : Type}
    {decoders : String → Option (BackendResponseDecoder Raw Body)}
    {ctx : Context Body} {exchange : Backend Raw Body} {raw : Raw}
    (hinv : exchange ctx.endpoint.Service ctx = .ok raw)
    (hdec : decoders ctx.endpoint.Service.RpcProto = none) :
    DoExchange decoders ctx exchange
      = (ctx, some ErrBackendResponseDecoderNotFound) := by
  unfold DoExchange
  rw [hinv]
  simp only [hdec]

theorem doExchange_decode_error {Raw Body : Type}
    {decoders : String → Option (BackendResponseDecoder Raw Body)}
    {ctx : Context Body} {exchange : Backend Raw Body} {raw : Raw}
    {dec : BackendResponseDecoder Raw Body} {ge : String}
    (hinv : exchange ctx.endpoint.Service ctx = .ok raw)
    (hdec : decoders ctx.endpoint.Service.RpcProto = some dec)
    (hdk : dec ctx raw = .error ge) :
    DoExchange decoders ctx exchange
      = (ctx, some (decodeResponseError ge)) := by
  unfold DoExchange
  simp only [hinv, hdec, hdk]

theorem doExchange_success_eq {Raw Body : Type}
    {decoders : String → Option (BackendResponseDecoder Raw Body)}
    {ctx : Context Body} {exchange : Backend Raw Body} {raw : Raw}
    {dec : BackendResponseDecoder Raw Body}
    {code : Int} {headers : Headers} {body : Body}
    (hinv : exchange ctx.endpoint.Service ctx = .ok raw)
    (hdec : decoders ctx.endpoint.Service.RpcProto = some dec)
    (hok : dec ctx raw = .ok (code, headers, body)) :
    DoExchange decoders ctx exchange
      = (((ctx.setStatusCode code).setHeaders headers).setBody body, none) := by
  unfold DoExchange
  simp only [hinv, hdec, hok]

/-- C2: when the backend invocation returns a raw response without error and
the registered decoder for the endpoint's protocol decodes it without
error, `DoExchange` writes the decoder's status code, headers and body into
the context's outward response, in that order, and returns no error. -/
theorem c2_doExchange_success {Raw Body : Type}
    (decoders : String → Option (BackendResponseDecoder Raw Body))
    (ctx : Context Body) (exchange : Backend Raw Body)
    (raw : Raw) (dec : BackendResponseDecoder Raw Body)
    (code : Int) (headers : Headers) (body : Body)
    (hinv : exchange ctx.endpoint.Service ctx = .ok raw)
    (hdec : decoders ctx.endpoint.Service.RpcProto = some dec)
    (hok : dec ctx raw = .ok (code, headers, body)) :
    DoExchange decoders ctx exchange
      = (((ctx.setStatusCode code).setHeaders headers).setBody body, none) ∧
    (DoExchange decoders ctx exchange).1.response.calls
      = ctx.response.calls
        ++ [.setStatusCode code, .setHeaders headers, .setBody body] ∧
    (DoExchange decoders ctx exchange).1.response.statusCode = code ∧
    (DoExchange decoders ctx exchange).1.response.headers = headers ∧
    (DoExchange decoders ctx exchange).1.response.body = some body := by
  have h := doExchange_success_eq hinv hdec hok
  rw [h]
  refine ⟨rfl, ?_, rfl, rfl, rfl⟩
  simp [Context.setStatusCode, Context.setHeaders, Context.setBody]

/-- Witness for C2: a concrete "http" endpoint, invoker and decoder. -/
theorem c2_doExchange_success_witness :
    DoExchange decodersEx ctxEx backendOkEx
      = (((ctxEx.setStatusCode 200).setHeaders [("X", "Y")]).setBody
          "raw-response", none) :=
  (c2_doExchange_success decodersEx ctxEx backendOkEx "raw-response" decoderEx
    200 [("X", "Y")] "raw-response" rfl rfl rfl).1

/-- C3: `DoExchange` populates the outward response only on full success of
invoke plus decode: whenever it returns an error, the context (hence its
setter-call trace) is unchanged, an invocation error is returned to the
caller unchanged, and a decode error is returned wrapped with the original
cause preserved in `Internal`. -/
theorem c3_doExchange_error_frame {Raw Body : Type}
    (decoders : String → Option (BackendResponseDecoder Raw Body))
    (ctx : Context Body) (exchange : Backend Raw Body) :
    ((DoExchange decoders ctx exchange).2 ≠ none →
      (DoExchange decoders ctx exchange).1 = ctx) ∧
    (∀ e, exchange ctx.endpoint.Service ctx = .error e →
      DoExchange decoders ctx exchange = (ctx, some e)) ∧
    (∀ raw dec ge, exchange ctx.endpoint.Service ctx = .ok raw →
      decoders ctx.endpoint.Service.RpcProto = some dec →
      dec ctx raw = .error ge →
      DoExchange decoders ctx exchange = (ctx, some (decodeResponseError ge)) ∧
      (decodeResponseError ge).Internal = some ge) := by
  refine ⟨?_, fun e he => doExchange_invoke_error he,
    fun raw dec ge hinv hdec hdk => ⟨doExchange_decode_error hinv hdec hdk, rfl⟩⟩
  intro hne
  cases hinv : exchange ctx.endpoint.Service ctx with
  | error e => rw [doExchange_invoke_error hinv]
  | ok raw =>
    cases hdec : decoders ctx.endpoint.Service.RpcProto with
    | none => rw [doExchange_no_decoder hinv hdec]
    | some dec =>
      cases hdk : dec ctx raw with
      | error ge => rw [doExchange_decode_error hinv hdec hdk]
      | ok t =>
        obtain ⟨code, headers, body⟩ := t
        rw [doExchange_success_eq hinv hdec hdk] at hne
        exact absurd rfl hne

/-- Witness for C3: a failing backend's error is returned unchanged and the
context is untouched. -/
theorem c3_doExchange_error_frame_witness :
    DoExchange decodersEx ctxEx backendErrEx = (ctxEx, some invokeErrEx) :=
  (c3_doExchange_error_frame decodersEx ctxEx backendErrEx).2.1 invokeErrEx rfl

/-- C4: a successful invocation whose protocol has no registered response
decoder makes `DoExchange` return the one fixed decoder-not-found error
(server-error status, gateway-internal error code, message
"BACKEND:RESPONSE_DECODER:NOT_FOUND") with the context — and hence its
setter-call trace — unchanged. -/
theorem c4_decoder_not_found {Raw Body : Type}
    (decoders : String → Option (BackendResponseDecoder Raw Body))
    (ctx : Context Body) (exchange : Backend Raw Body) (raw : Raw)
    (hinv : exchange ctx.endpoint.Service ctx = .ok raw)
    (hdec : decoders ctx.endpoint.Service.RpcProto = none) :
    DoExchange decoders ctx exchange
      = (ctx, some ErrBackendResponseDecoderNotFound) ∧
    ErrBackendResponseDecoderNotFound.StatusCode = StatusServerError ∧
    ErrBackendResponseDecoderNotFound.ErrorCode = ErrorCodeGatewayInternal ∧
    ErrBackendResponseDecoderNotFound.Message
      = "BACKEND:RESPONSE_DECODER:NOT_FOUND" ∧
    ErrBackendResponseDecoderNotFound.Internal = none ∧
    (DoExchange decoders ctx exchange).1.response.calls
      = ctx.response.calls := by
  rw [doExchange_no_decoder hinv hdec]
  exact ⟨rfl, rfl, rfl, rfl, rfl, rfl⟩

/-- Witness for C4: an empty decoder registry with a succeeding backend. -/
theorem c4_decoder_not_found_witness :
    DoExchange decodersNone ctxEx backendOkEx
      = (ctxEx, some ErrBackendResponseDecoderNotFound) :=
  (c4_decoder_not_found decodersNone ctxEx backendOkEx "raw-response"
    rfl rfl).1

theorem runResolver_stringT (ser : Serializer) (tc : String) (g : List String)
    (mv : MIMEValue) : runResolver ser .stringT tc g mv = stringResolver ser tc g mv := by
  simp [runResolver]

theorem runResolver_integerT (ser : Serializer) (tc : String) (g : List String)
    (mv : MIMEValue) : runResolver ser .integerT tc g mv = integerResolver tc g mv := by
  simp [runResolver]

theorem runResolver_defaultT (ser : Serializer) (tc : String) (g : List String)
    (mv : MIMEValue) : runResolver ser .defaultT tc g mv = defaultResolver tc g mv := by
  simp [runResolver]

/-- The dispatcher's inlined list branch coincides with the source's
`listResolver` built on `CastToArrayList`. -/
theorem runResolver_listT (ser : Serializer) (tc : String) (g : List String)
    (mv : MIMEValue) : runResolver ser .listT tc g mv = listResolver ser tc g mv := by
  cases g with
  | nil => simp [runResolver, listResolver, CastToArrayList, Except.map]
  | cons t ts =>
    simp only [runResolver, listResolver, CastToArrayList, LoadTypedValueResolver]
    cases h : runResolver ser ((registeredTag t).getD .defaultT) t [] mv <;>
      simp [h, Except.map]

/-- C5: the integer, 64-bit integer, 32-bit float, 64-bit float and boolean
resolvers return a nil error for every input MIME value; resolving type
"int" on a raw-text "42" yields integer 42 with no error, and resolving an
unparseable numeric text yields the zero value with no error. -/
theorem c5_numeric_boolean_resolvers_never_error
    (ser : Serializer) (tc : String) (g : List String) (mv : MIMEValue) :
    integerResolver tc g mv = .ok (.intv (castToInt mv.Value)) ∧
    longResolver tc g mv = .ok (.intv (castToInt64 mv.Value)) ∧
    float32Resolver tc g mv = .ok (.floatv (castToFloat32 mv.Value)) ∧
    float64Resolver tc g mv = .ok (.floatv (castToFloat64 mv.Value)) ∧
    booleanResolver tc g mv = .ok (.boolv (castToBool mv.Value)) ∧
    resolveTypedValue ser "int" [] ⟨ValueMIMETypeGoText, .strv "42"⟩
      = .ok (.intv 42) ∧
    resolveTypedValue ser "int" [] ⟨ValueMIMETypeGoText, .strv "not-a-number"⟩
      = .ok (.intv 0) := by
  refine ⟨rfl, rfl, rfl, rfl, rfl, ?_, ?_⟩
  · show runResolver ser ((registeredTag "int").getD .defaultT) "int" [] _ = _
    rw [show (registeredTag "int").getD .defaultT = .integerT from rfl,
      runResolver_integerT]
    rfl
  · show runResolver ser ((registeredTag "int").getD .defaultT) "int" [] _ = _
    rw [show (registeredTag "int").getD .defaultT = .integerT from rfl,
      runResolver_integerT]
    rfl

/-- C6: a type-class name with no registered resolver resolves through the
reserved default resolver, which never errors and returns a descriptor
carrying the original type name, the generic type parameters, and the raw
value unchanged. -/
theorem c6_unknown_type_uses_default_resolver (ser : Serializer) (name : String)
    (h : registeredTag name = none) (g : List String) (mv : MIMEValue) :
    resolveTypedValue ser name g mv = defaultResolver name g mv ∧
    defaultResolver name g mv
      = .ok (.mapv [("class", .strv name),
                    ("generic", .listv (g.map .strv)),
                    ("value", .mimev mv.MIMEType mv.Value)]) := by
  constructor
  · show runResolver ser ((registeredTag name).getD .defaultT) name g mv = _
    rw [h]
    exact runResolver_defaultT ser name g mv
  · rfl

/-- Witness for C6 at the unregistered name "com.foo.Bar". -/
theorem c6_unknown_type_uses_default_resolver_witness :
    resolveTypedValue serEx "com.foo.Bar" ["java.lang.String"]
        ⟨ValueMIMETypeGoText, .strv "raw"⟩
      = .ok (.mapv [("class", .strv "com.foo.Bar"),
                    ("generic", .listv [.strv "java.lang.String"]),
                    ("value", .mimev ValueMIMETypeGoText (.strv "raw"))]) :=
  ((c6_unknown_type_uses_default_resolver serEx "com.foo.Bar" rfl
      ["java.lang.String"] ⟨ValueMIMETypeGoText, .strv "raw"⟩).1).trans
    ((c6_unknown_type_uses_default_resolver serEx "com.foo.Bar" rfl
      ["java.lang.String"] ⟨ValueMIMETypeGoText, .strv "raw"⟩).2)

/-- C9: with a non-empty generic list, `CastToArrayList` resolves the MIME
value as a single element with the first generic type's resolver and wraps
the result in a one-element sequence, propagating the element resolver's
error; with no generics it wraps the raw MIME value unchanged, with no
error. Resolving "slice" generics ["string"] on raw text "x" yields the
one-element sequence ["x"]. -/
theorem c9_cast_to_array_list (ser : Serializer) (t : String) (ts : List String)
    (mv : MIMEValue) :
    CastToArrayList ser (t :: ts) mv
      = (LoadTypedValueResolver ser t t [] mv).map (fun v => [v]) ∧
    CastToArrayList ser [] mv = .ok [mv.Value] ∧
    CastToArrayList ser ["string"] ⟨ValueMIMETypeGoText, .strv "x"⟩
      = .ok [.strv "x"] := by
  refine ⟨?_, rfl, ?_⟩
  · unfold CastToArrayList
    cases h : LoadTypedValueResolver ser t t [] mv <;> simp [h, Except.map]
  · have h : LoadTypedValueResolver ser "string" "string" []
        ⟨ValueMIMETypeGoText, .strv "x"⟩ = .ok (.strv "x") := by
      show runResolver ser ((registeredTag "string").getD .defaultT) "string" [] _ = _
      rw [show (registeredTag "string").getD .defaultT = .stringT from rfl,
        runResolver_stringT]
      rfl
    simp only [CastToArrayList]
    rw [h]

theorem stringsReplaceFuel_quote (fuel : Nat) (s : List Char) (h : s.length ≤ fuel) :
    stringsReplaceFuel ['"'] ['\\', '"'] fuel s
      = s.flatMap (fun c => if c = '"' then ['\\', '"'] else [c]) := by
  induction fuel generalizing s with
  | zero =>
    cases s with
    | nil => rfl
    | cons c rest => simp at h
  | succ n ih =>
    cases s with
    | nil => rfl
    | cons c rest =>
      by_cases hc : c = '"'
      · subst hc
        have hpre : List.isPrefixOf ['"'] ('"' :: rest) = true := by
          simp [List.isPrefixOf]
        have hlen : rest.length ≤ n := by
          simp only [List.length_cons] at h
          omega
        simp [stringsReplaceFuel, hpre, ih rest hlen]
      · have hpre : List.isPrefixOf ['"'] (c :: rest) = false := by
          simp [List.isPrefixOf]
          exact fun he => absurd he.symm hc
        have hlen : rest.length ≤ n := by
          simp only [List.length_cons] at h
          omega
        simp [stringsReplaceFuel, hpre, hc, ih rest hlen]

theorem jsonEncodeChars_eq_bind (s : List Char) :
    jsonEncodeChars s = s.flatMap (fun c => if c = '"' then ['\\', '"'] else [c]) :=
  stringsReplaceFuel_quote s.length s le_rfl

theorem flatMap_quote_eq_self {l : List Char} (h : ∀ c ∈ l, c ≠ '"') :
    (l.flatMap fun c => if c = '"' then ['\\', '"'] else [c]) = l := by
  induction l with
  | nil => rfl
  | cons c rest ih =>
    have hc := h c (by simp)
    simp [hc, ih (fun d hd => h d (by simp [hd]))]

/-- C8: the escaping applied by the form-to-JSON transcoder is exactly:
every double-quote character of the input is transformed (replaced by
backslash + quote, doubling it into two characters), and every other
character — backslashes and control characters included — is passed
through unchanged; a string without double quotes is returned verbatim. -/
theorem c8_json_string_encode_only_quotes (s : String) :
    (JSONStringValueEncode s).data
      = s.data.flatMap (fun c => if c = '"' then ['\\', '"'] else [c]) ∧
    ('"' ∉ s.data → JSONStringValueEncode s = s) := by
  refine ⟨jsonEncodeChars_eq_bind s.data, fun hq => ?_⟩
  show String.mk (jsonEncodeChars s.data) = s
  rw [jsonEncodeChars_eq_bind, flatMap_quote_eq_self (fun c hc he => hq (he ▸ hc))]

/-- Witness for C8: a string holding a backslash but no quote is unchanged. -/
theorem c8_json_string_encode_only_quotes_witness :
    JSONStringValueEncode "a\\b" = "a\\b" :=
  (c8_json_string_encode_only_quotes "a\\b").2 (by decide)

theorem renderQueryField_eq_spec (kv : List Char × List (List Char)) :
    renderQueryField kv = specRenderField kv.1 kv.2 := by
  obtain ⟨k, vs⟩ := kv
  by_cases hl : 1 < vs.length
  · simp [renderQueryField, specRenderField, hl]
    rfl
  · simp [renderQueryField, specRenderField, specQuoted, hl]

theorem upsertValue_ne_nil {m : List (List Char × List (List Char))}
    (hm : ∀ kv ∈ m, kv.2 ≠ []) (k v : List Char) :
    ∀ kv ∈ upsertValue m k v, kv.2 ≠ [] := by
  induction m with
  | nil =>
    intro kv hkv
    simp [upsertValue] at hkv
    simp [hkv]
  | cons p rest ih =>
    obtain ⟨k', vs⟩ := p
    intro kv hkv
    by_cases hk : k' = k
    · simp [upsertValue, hk] at hkv
      rcases hkv with hkv | hkv
      · simp [hkv]
      · exact hm kv (by simp [hkv])
    · simp [upsertValue, hk] at hkv
      rcases hkv with hkv | hkv
      · exact hm kv (by simp [hkv])
      · exact ih (fun kw hkw => hm kw (by simp [hkw])) kv hkv

theorem parseQueryStep_ne_nil {acc : List (List Char × List (List Char)) × Bool}
    (h : ∀ kv ∈ acc.1, kv.2 ≠ []) (seg : List Char) :
    ∀ kv ∈ (parseQueryStep acc seg).1, kv.2 ≠ [] := by
  unfold parseQueryStep
  by_cases hs : seg = []
  · simpa [hs] using h
  · simp only [hs, if_false]
    cases h1 : queryUnescape (splitKV seg).1 with
    | none => simpa using h
    | some k =>
      cases h2 : queryUnescape (splitKV seg).2 with
      | none => simpa using h
      | some v => simpa using upsertValue_ne_nil h k v

theorem foldl_parseQueryStep_ne_nil (segs : List (List Char))
    (acc : List (List Char × List (List Char)) × Bool)
    (h : ∀ kv ∈ acc.1, kv.2 ≠ []) :
    ∀ kv ∈ (segs.foldl parseQueryStep acc).1, kv.2 ≠ [] := by
  induction segs generalizing acc with
  | nil => exact h
  | cons seg rest ih => exact ih _ (parseQueryStep_ne_nil h seg)

theorem parseQuery_values_ne_nil (s : List Char) :
    ∀ kv ∈ (parseQuery s).1, kv.2 ≠ [] :=
  foldl_parseQueryStep_ne_nil _ _ (fun _ hkv => nomatch hkv)

/-- C7: on every parseable form payload, `JSONBytesFromQueryString` renders
each key with multiple values as a JSON array of quoted, escaped strings,
each key with exactly one value as a single quoted, escaped string
(`specRenderField`, stated from the spec's words), and joins all pairs
into one flat JSON object; every parsed key carries at least one value, so
the single-value branch is exactly the "exactly one value" case. In
particular "a=1&a=2&b=3" yields the object mapping "a" to the array
["1","2"] and "b" to "3". -/
theorem c7_json_bytes_from_query_string (q : String)
    (m : List (List Char × List (List Char)))
    (h : parseQuery q.data = (m, false)) :
    JSONBytesFromQueryString q
      = .ok ⟨'{' :: (List.intercalate [',']
          (m.map fun kv => specRenderField kv.1 kv.2) ++ ['}'])⟩ ∧
    (∀ kv ∈ m, kv.2 ≠ []) ∧
    JSONBytesFromQueryString "a=1&a=2&b=3"
      = .ok "\x7b\"a\":[\"1\",\"2\"],\"b\":\"3\"\x7d" := by
  refine ⟨?_, ?_, ?_⟩
  · unfold JSONBytesFromQueryString
    rw [h, show renderQueryField = (fun kv => specRenderField kv.1 kv.2) from
      funext renderQueryField_eq_spec]
  · intro kv hkv
    have h1 : (parseQuery q.data).1 = m := by rw [h]
    exact parseQuery_values_ne_nil q.data kv (h1 ▸ hkv)
  · rfl

/-- Witness for C7 at the spec's own example payload. -/
theorem c7_json_bytes_from_query_string_witness :
    JSONBytesFromQueryString "a=1&a=2&b=3"
      = .ok "\x7b\"a\":[\"1\",\"2\"],\"b\":\"3\"\x7d" :=
  (c7_json_bytes_from_query_string "x=1" [(['x'], [['1']])] rfl).2.2

end Flux
